import Mathlib

/-!
Verification of the FTP control-protocol engine (hadronomy/ftp-server).

Shallow embedding of the line parser (src/parser.rs), the status-code
catalog (src/ftp/status_codes.rs), the command handlers
(src/ftp/command/*.rs), the legacy dispatch loop (src/ftp/server.rs) and
the legacy client handler (src/main.rs).  Strings are modelled as their
character lists; machine integers as Nat with explicit bounds; fallible
or panicking code as Option / Except; socket and file effects as an
explicit event trace.
-/

namespace FtpServer

/-! ## Line parser (src/parser.rs)

The source uses nom combinators.  `non_space` is
`take_while1 (not char::is_whitespace)`; `cmd_param_parser` is
`delimited (multispace0, non_space, multispace0)`; `cmd_arg_parser` is
`many0 cmd_param_parser`; `cmd_name_parser` is `cmd_param_parser`;
`cmd_parser` is `tuple (cmd_name_parser, cmd_arg_parser)`.
A parser takes the input and yields the produced value together with the
remaining input, or fails.
-/

/-- The predicate of Rust `char::is_whitespace`: the Unicode White_Space
code points. -/
def rustIsWhitespace (c : Char) : Bool :=
  let n := c.toNat
  (0x9 ≤ n && n ≤ 0xD) || n = 0x20 || n = 0x85 || n = 0xA0 || n = 0x1680 ||
  (0x2000 ≤ n && n ≤ 0x200A) || n = 0x2028 || n = 0x2029 || n = 0x202F ||
  n = 0x205F || n = 0x3000

/-- The character class of the nom `multispace0` combinator: space, tab,
carriage return and line feed only. -/
def isMultispace (c : Char) : Bool :=
  c = ' ' || c = '\t' || c = '\r' || c = '\n'

/-- `non_space` from src/parser.rs: `take_while1` of any non-whitespace
character.  Yields the taken token and the remaining input; fails when no
character can be taken. -/
def nonSpace (s : List Char) : Option (List Char × List Char) :=
  let tok := s.takeWhile (fun c => !rustIsWhitespace c)
  if tok.isEmpty then none
  else some (tok, s.dropWhile (fun c => !rustIsWhitespace c))

/-- nom `multispace0`: consume any run of space, tab, CR, LF; never
fails. -/
def multispace0 (s : List Char) : List Char :=
  s.dropWhile isMultispace

/-- `cmd_param_parser` from src/parser.rs: `delimited (multispace0,
non_space, multispace0)`. -/
def cmdParam (s : List Char) : Option (List Char × List Char) :=
  match nonSpace (multispace0 s) with
  | none => none
  | some (tok, rest) => some (tok, multispace0 rest)

theorem length_dropWhile_le (p : Char → Bool) :
    ∀ l : List Char, (l.dropWhile p).length ≤ l.length
  | [] => Nat.le_refl _
  | a :: l => by
    rw [List.dropWhile_cons]
    split
    · exact Nat.le_trans (length_dropWhile_le p l) (Nat.le_succ _)
    · exact Nat.le_refl _

theorem takeWhile_append_dropWhile_eq (p : Char → Bool) :
    ∀ l : List Char, l.takeWhile p ++ l.dropWhile p = l
  | [] => rfl
  | a :: l => by
    rw [List.takeWhile_cons, List.dropWhile_cons]
    split
    · simp [takeWhile_append_dropWhile_eq p l]
    · rfl

theorem cmdParam_progress {s tok rest : List Char}
    (h : cmdParam s = some (tok, rest)) : rest.length < s.length := by
  unfold cmdParam nonSpace at h
  by_cases he : ((multispace0 s).takeWhile (fun c => !rustIsWhitespace c)).isEmpty
  · simp [he] at h
  · simp [he] at h
    have hsplit := takeWhile_append_dropWhile_eq
      (fun c => !rustIsWhitespace c) (multispace0 s)
    have hms : (multispace0 s).length ≤ s.length :=
      length_dropWhile_le _ s
    have htok : 0 < ((multispace0 s).takeWhile (fun c => !rustIsWhitespace c)).length := by
      cases hx : (multispace0 s).takeWhile (fun c => !rustIsWhitespace c) with
      | nil => rw [hx] at he; simp at he
      | cons a l => simp [hx]
    have hlen :
        ((multispace0 s).takeWhile (fun c => !rustIsWhitespace c)).length +
          ((multispace0 s).dropWhile (fun c => !rustIsWhitespace c)).length =
          (multispace0 s).length := by
      rw [← List.length_append]
      exact congrArg List.length hsplit
    have hdrop :
        ((multispace0 s).dropWhile (fun c => !rustIsWhitespace c)).length <
          (multispace0 s).length := by
      omega
    have hrest : rest.length ≤
        ((multispace0 s).dropWhile (fun c => !rustIsWhitespace c)).length := by
      rw [← h.2]
      exact length_dropWhile_le _ _
    omega

/-- Recursion core of `cmd_arg_parser`, with explicit fuel.  The inner
parser consumes at least one character whenever it succeeds, so a fuel of
the input length is always sufficient (`cmdArgsAux_stable`). -/
def cmdArgsAux : Nat → List Char → List (List Char) × List Char
  | 0, s => ([], s)
  | fuel + 1, s =>
    match cmdParam s with
    | none => ([], s)
    | some (tok, rest) =>
      let (toks, r) := cmdArgsAux fuel rest
      (tok :: toks, r)

/-- `cmd_arg_parser` from src/parser.rs: `many0 cmd_param_parser`.
nom `many0` applies the inner parser until it fails and collects the
results; it never fails itself. -/
def cmdArgs (s : List Char) : List (List Char) × List Char :=
  cmdArgsAux s.length s

theorem cmdArgsAux_stable :
    ∀ (n fuel fuel2 : Nat) (s : List Char), s.length ≤ n →
      s.length ≤ fuel → s.length ≤ fuel2 →
      cmdArgsAux fuel s = cmdArgsAux fuel2 s := by
  intro n
  induction n with
  | zero =>
    intro fuel fuel2 s hn _ _
    have hnil : s = [] := List.length_eq_zero.mp (Nat.le_zero.mp hn)
    subst hnil
    cases fuel <;> cases fuel2 <;> rfl
  | succ n ih =>
    intro fuel fuel2 s hn hf hf2
    cases s with
    | nil => cases fuel <;> cases fuel2 <;> rfl
    | cons a t =>
      have h1 : 0 < fuel := by simp at hf; omega
      have h2 : 0 < fuel2 := by simp at hf2; omega
      obtain ⟨f1, rfl⟩ : ∃ f1, fuel = f1 + 1 := ⟨fuel - 1, by omega⟩
      obtain ⟨f2, rfl⟩ : ∃ f2, fuel2 = f2 + 1 := ⟨fuel2 - 1, by omega⟩
      show (match cmdParam (a :: t) with
        | none => ([], a :: t)
        | some (tok, rest) =>
          let (toks, r) := cmdArgsAux f1 rest
          (tok :: toks, r)) =
        (match cmdParam (a :: t) with
        | none => ([], a :: t)
        | some (tok, rest) =>
          let (toks, r) := cmdArgsAux f2 rest
          (tok :: toks, r))
      cases hp : cmdParam (a :: t) with
      | none => rfl
      | some pr =>
        obtain ⟨tok, rest⟩ := pr
        have hlt : rest.length ≤ t.length := by
          have := cmdParam_progress hp
          simp at this
          omega
        simp only
        rw [ih f1 f2 rest (by simp at hn; omega) (by simp at hf; omega)
          (by simp at hf2; omega)]

/-- `cmd_parser` from src/parser.rs: `tuple (cmd_name_parser,
cmd_arg_parser)` where `cmd_name_parser = cmd_param_parser`.  Yields the
keyword, the argument tokens, and the remaining input. -/
def cmdParse (s : List Char) : Option ((List Char × List (List Char)) × List Char) :=
  match cmdParam s with
  | none => none
  | some (k, rest) =>
    let (args, r) := cmdArgs rest
    some ((k, args), r)

/-- A well-formed token: non-empty and free of whitespace characters. -/
def goodToken (t : List Char) : Prop :=
  t ≠ [] ∧ ∀ c ∈ t, rustIsWhitespace c = false

theorem mem_takeWhile_sat (p : Char → Bool) :
    ∀ (l : List Char) (c : Char), c ∈ l.takeWhile p → p c = true
  | a :: l, c, h => by
    rw [List.takeWhile_cons] at h
    split at h
    · rcases List.mem_cons.mp h with h | h
      · subst h; assumption
      · exact mem_takeWhile_sat p l c h
    · exact absurd h (List.not_mem_nil c)

theorem cmdParam_goodToken {s tok rest : List Char}
    (h : cmdParam s = some (tok, rest)) : goodToken tok := by
  unfold cmdParam nonSpace at h
  by_cases he : ((multispace0 s).takeWhile (fun c => !rustIsWhitespace c)).isEmpty
  · simp [he] at h
  · simp [he] at h
    constructor
    · intro hnil
      rw [← h.1] at hnil
      rw [hnil] at he
      simp at he
    · intro c hc
      rw [← h.1] at hc
      have := mem_takeWhile_sat (fun c => !rustIsWhitespace c) _ c hc
      simpa using this

theorem cmdArgs_none {s : List Char} (h : cmdParam s = none) :
    cmdArgs s = ([], s) := by
  unfold cmdArgs
  cases s with
  | nil => rfl
  | cons a t =>
    show (match cmdParam (a :: t) with
      | none => ([], a :: t)
      | some (tok, rest) =>
        let (toks, r) := cmdArgsAux t.length rest
        (tok :: toks, r)) = ([], a :: t)
    rw [h]

theorem cmdArgs_some {s tok rest : List Char}
    (h : cmdParam s = some (tok, rest)) :
    cmdArgs s = (tok :: (cmdArgs rest).1, (cmdArgs rest).2) := by
  have hlt : rest.length < s.length := cmdParam_progress h
  unfold cmdArgs
  cases s with
  | nil => simp at hlt
  | cons a t =>
    show (match cmdParam (a :: t) with
      | none => ([], a :: t)
      | some (tok, rest) =>
        let (toks, r) := cmdArgsAux t.length rest
        (tok :: toks, r)) = _
    rw [h]
    have hstab := cmdArgsAux_stable rest.length t.length rest.length rest
      (Nat.le_refl _) (by simp at hlt; omega) (Nat.le_refl _)
    simp only [hstab]

theorem cmdArgs_goodTokens (s : List Char) :
    ∀ t ∈ (cmdArgs s).1, goodToken t := by
  have H : ∀ (n : Nat) (s : List Char), s.length ≤ n →
      ∀ t ∈ (cmdArgs s).1, goodToken t := by
    intro n
    induction n with
    | zero =>
      intro s hs t ht
      have hnil : s = [] := List.length_eq_zero.mp (Nat.le_zero.mp hs)
      subst hnil
      rw [cmdArgs_none (s := []) rfl] at ht
      simp at ht
    | succ n ih =>
      intro s hs t ht
      cases hp : cmdParam s with
      | none =>
        rw [cmdArgs_none hp] at ht
        simp at ht
      | some pr =>
        obtain ⟨tok, rest⟩ := pr
        rw [cmdArgs_some hp] at ht
        rcases List.mem_cons.mp ht with h | h
        · subst h
          exact cmdParam_goodToken hp
        · have hlt : rest.length < s.length := cmdParam_progress hp
          exact ih rest (by omega) t h
  exact H s.length s (Nat.le_refl _)

/-- Re-joining a token list with single spaces, as in the spec statement
of tokenization idempotence. -/
def rejoinTokens : List (List Char) → List Char
  | [] => []
  | [t] => t
  | t :: ts => t ++ ' ' :: rejoinTokens ts

theorem multispace_is_whitespace {c : Char} (h : isMultispace c = true) :
    rustIsWhitespace c = true := by
  unfold isMultispace at h
  simp only [Bool.or_eq_true, decide_eq_true_eq] at h
  rcases h with ((h | h) | h) | h <;> subst h <;> decide

theorem multispace0_of_goodHead {t r : List Char} (ht : goodToken t) :
    multispace0 (t ++ r) = t ++ r := by
  obtain ⟨hne, hws⟩ := ht
  cases t with
  | nil => exact absurd rfl hne
  | cons a t =>
    unfold multispace0
    rw [List.cons_append, List.dropWhile_cons]
    have ha : rustIsWhitespace a = false := hws a (List.mem_cons_self a t)
    have : isMultispace a = false := by
      cases hm : isMultispace a
      · rfl
      · rw [multispace_is_whitespace hm] at ha; cases ha
    simp [this]

theorem takeWhile_token_append {t r : List Char} {x : Char}
    (hws : ∀ c ∈ t, rustIsWhitespace c = false) (hx : rustIsWhitespace x = true) :
    (t ++ x :: r).takeWhile (fun c => !rustIsWhitespace c) = t ∧
    (t ++ x :: r).dropWhile (fun c => !rustIsWhitespace c) = x :: r := by
  induction t with
  | nil =>
    simp [List.takeWhile_cons, List.dropWhile_cons, hx]
  | cons a t ih =>
    have ha : rustIsWhitespace a = false := hws a (List.mem_cons_self a t)
    have iht := ih (fun c hc => hws c (List.mem_cons_of_mem a hc))
    constructor
    · rw [List.cons_append, List.takeWhile_cons]
      simp [ha, iht.1]
    · rw [List.cons_append, List.dropWhile_cons]
      simp [ha, iht.2]

theorem takeWhile_token_all {t : List Char}
    (hws : ∀ c ∈ t, rustIsWhitespace c = false) :
    t.takeWhile (fun c => !rustIsWhitespace c) = t ∧
    t.dropWhile (fun c => !rustIsWhitespace c) = [] := by
  induction t with
  | nil => exact ⟨rfl, rfl⟩
  | cons a t ih =>
    have ha : rustIsWhitespace a = false := hws a (List.mem_cons_self a t)
    have iht := ih (fun c hc => hws c (List.mem_cons_of_mem a hc))
    constructor
    · rw [List.takeWhile_cons]; simp [ha, iht.1]
    · rw [List.dropWhile_cons]; simp [ha, iht.2]

theorem cmdParam_single {t : List Char} (ht : goodToken t) :
    cmdParam t = some (t, []) := by
  have hms : multispace0 t = t := by
    have := multispace0_of_goodHead (r := []) ht
    simpa using this
  unfold cmdParam nonSpace
  rw [hms]
  obtain ⟨hne, hws⟩ := ht
  obtain ⟨h1, h2⟩ := takeWhile_token_all hws
  rw [h1, h2]
  have hemp : t.isEmpty = false := by
    cases t with
    | nil => exact absurd rfl hne
    | cons a t => rfl
  simp [hemp, multispace0]

theorem cmdParam_token_sep {t r : List Char} (ht : goodToken t) :
    cmdParam (t ++ ' ' :: r) = some (t, multispace0 r) := by
  have hms := multispace0_of_goodHead (r := ' ' :: r) ht
  unfold cmdParam nonSpace
  rw [hms]
  obtain ⟨hne, hws⟩ := ht
  obtain ⟨h1, h2⟩ := takeWhile_token_append (x := ' ') (r := r) hws (by decide)
  rw [h1, h2]
  have hemp : t.isEmpty = false := by
    cases t with
    | nil => exact absurd rfl hne
    | cons a t => rfl
  simp only [hemp, Bool.false_eq_true, if_false]
  have : multispace0 (' ' :: r) = multispace0 r := by
    unfold multispace0
    rw [List.dropWhile_cons]
    simp [isMultispace]
  rw [this]

theorem multispace0_rejoin {toks : List (List Char)}
    (hne : toks ≠ []) (hgood : ∀ t ∈ toks, goodToken t) :
    multispace0 (rejoinTokens toks) = rejoinTokens toks := by
  cases toks with
  | nil => exact absurd rfl hne
  | cons t ts =>
    have hgt : goodToken t := hgood t (List.mem_cons_self t ts)
    cases ts with
    | nil =>
      have := multispace0_of_goodHead (r := ([] : List Char)) hgt
      simpa using this
    | cons t2 ts2 =>
      have hr : rejoinTokens (t :: t2 :: ts2) = t ++ ' ' :: rejoinTokens (t2 :: ts2) := rfl
      rw [hr]
      exact multispace0_of_goodHead hgt

theorem cmdArgs_rejoin :
    ∀ (toks : List (List Char)), (∀ t ∈ toks, goodToken t) →
      cmdArgs (rejoinTokens toks) = (toks, []) := by
  intro toks
  induction toks with
  | nil =>
    intro _
    exact cmdArgs_none rfl
  | cons t ts ih =>
    intro hgood
    have hgt : goodToken t := hgood t (List.mem_cons_self t ts)
    have hgts : ∀ u ∈ ts, goodToken u :=
      fun u hu => hgood u (List.mem_cons_of_mem t hu)
    cases ts with
    | nil =>
      rw [show rejoinTokens [t] = t from rfl]
      rw [cmdArgs_some (cmdParam_single hgt), cmdArgs_none (s := []) rfl]
    | cons t2 ts2 =>
      have hr : rejoinTokens (t :: t2 :: ts2) = t ++ ' ' :: rejoinTokens (t2 :: ts2) := rfl
      have hhead := multispace0_rejoin (by simp) hgts
      have hp : cmdParam (rejoinTokens (t :: t2 :: ts2)) =
          some (t, rejoinTokens (t2 :: ts2)) := by
        rw [hr, cmdParam_token_sep hgt, hhead]
      rw [cmdArgs_some hp, ih hgts]

theorem cmdParse_some {s k rest : List Char}
    (h : cmdParam s = some (k, rest)) :
    cmdParse s = some ((k, (cmdArgs rest).1), (cmdArgs rest).2) := by
  unfold cmdParse
  rw [h]

/-- Parsing the single-space rejoin of a good token list yields exactly
that token list with empty remainder. -/
theorem cmdParse_rejoin {toks : List (List Char)}
    (hne : toks ≠ []) (hgood : ∀ t ∈ toks, goodToken t) :
    cmdParse (rejoinTokens toks) =
      some ((toks.head hne, toks.tail), []) := by
  cases toks with
  | nil => exact absurd rfl hne
  | cons k args =>
    have hgk : goodToken k := hgood k (List.mem_cons_self k args)
    have hga : ∀ t ∈ args, goodToken t :=
      fun t ht => hgood t (List.mem_cons_of_mem k ht)
    cases args with
    | nil =>
      have h1 : cmdParam (rejoinTokens [k]) = some (k, []) := by
        rw [show rejoinTokens [k] = k from rfl]
        exact cmdParam_single hgk
      rw [cmdParse_some h1, cmdArgs_none (s := []) rfl]
      rfl
    | cons a as =>
      have h1 : cmdParam (rejoinTokens (k :: a :: as)) =
          some (k, rejoinTokens (a :: as)) := by
        rw [show rejoinTokens (k :: a :: as) = k ++ ' ' :: rejoinTokens (a :: as) from rfl,
          cmdParam_token_sep hgk, multispace0_rejoin (by simp) hga]
      rw [cmdParse_some h1, cmdArgs_rejoin (a :: as) hga]
      rfl

/-! ## Status code catalog (src/ftp/status_codes.rs)

The `StatusCode` enum of src/ftp/status_codes.rs, its `code` method and
its `ToString` implementation.  Dynamic string payloads are modelled as
character lists.  `ToString` arms that are `todo!()` in the source (a
panic when rendered) are modelled as `none`. -/

inductive StatusCode where
  | RestartMarkerReply
  | ServiceReadyIn
  | DataOpenTransfer
  | FileStatusOk
  | Ok
  | SuperfluousCmdNotImplemented
  | SystemStatus
  | DirectoryStatus
  | FileStatus
  | HelpMsg (message : List Char)
  | SystemType
  | ServiceReadyUser
  | DataOpenNoTransfer
  | ClosingDataConn
  | EnteringPassiveMode (portHigh portLow : Nat)
  | UserLoggedIn
  | FileActionOk
  | PathCreated
  | UsernameOk
  | NeedLoginAccount
  | FileActionPending
  | Unnavaidable
  | CantOpenDataConn
  | TransferAborted
  | FileActionNotTaken
  | ActionAbortedLocal
  | InsufficientStorage
  | SyntaxError
  | CmdNotImplemented
  | CmdBadSequence
  | CmdNotImplementedParam
  | UserNotLoggedIn
  | NeedAccountForStore
  | ActionNotTaken
  | ActionAbortedPageTypeUnknown
  | ExceededStorageAllocation
  | FilenameNotAllowed
deriving DecidableEq

namespace StatusCode

/-- `StatusCode::code` from src/ftp/status_codes.rs. -/
def code : StatusCode → Nat
  | RestartMarkerReply => 110
  | ServiceReadyIn => 120
  | DataOpenTransfer => 125
  | FileStatusOk => 150
  | Ok => 200
  | SuperfluousCmdNotImplemented => 202
  | SystemStatus => 211
  | DirectoryStatus => 212
  | FileStatus => 213
  | HelpMsg _ => 214
  | SystemType => 215
  | ServiceReadyUser => 220
  | DataOpenNoTransfer => 225
  | ClosingDataConn => 226
  | EnteringPassiveMode _ _ => 227
  | UserLoggedIn => 230
  | FileActionOk => 250
  | PathCreated => 257
  | UsernameOk => 331
  | NeedLoginAccount => 332
  | FileActionPending => 350
  | Unnavaidable => 421
  | CantOpenDataConn => 425
  | TransferAborted => 426
  | FileActionNotTaken => 450
  | ActionAbortedLocal => 451
  | InsufficientStorage => 452
  | SyntaxError => 500
  | CmdNotImplemented => 502
  | CmdBadSequence => 503
  | CmdNotImplementedParam => 504
  | UserNotLoggedIn => 530
  | NeedAccountForStore => 532
  | ActionNotTaken => 550
  | ActionAbortedPageTypeUnknown => 551
  | ExceededStorageAllocation => 552
  | FilenameNotAllowed => 553

/-- The `ToString` implementation for `StatusCode` from
src/ftp/status_codes.rs.  Each implemented arm is the corresponding
`format!` string with `{}` holes filled by the decimal code and the
payloads; `todo!()` arms (which panic) are `none`. -/
def render : StatusCode → Option (List Char)
  | RestartMarkerReply =>
    some ((Nat.repr (code RestartMarkerReply)).toList ++ " Restart marker reply\n".toList)
  | ServiceReadyIn => none
  | DataOpenTransfer =>
    some ((Nat.repr (code DataOpenTransfer)).toList ++
      " Data connection already open; transfer starting\n".toList)
  | FileStatusOk => none
  | Ok => some ((Nat.repr (code Ok)).toList ++ " Ok".toList)
  | SuperfluousCmdNotImplemented => none
  | SystemStatus => none
  | DirectoryStatus => none
  | FileStatus => none
  | HelpMsg message =>
    some ((Nat.repr (code (HelpMsg message))).toList ++ " ".toList ++ message ++ "\n".toList)
  | SystemType => none
  | ServiceReadyUser =>
    some ((Nat.repr (code ServiceReadyUser)).toList ++ " Service ready for new user\n".toList)
  | DataOpenNoTransfer =>
    some ((Nat.repr (code DataOpenNoTransfer)).toList ++ " Data connection open\n".toList)
  | ClosingDataConn =>
    some ((Nat.repr (code ClosingDataConn)).toList ++ " Closing data connection\n".toList)
  | EnteringPassiveMode portHigh portLow =>
    some ((Nat.repr (code (EnteringPassiveMode portHigh portLow))).toList ++
      " Entering Passive Mode (127, 0, 0, 1, ".toList ++
      (Nat.repr portHigh).toList ++ ", ".toList ++ (Nat.repr portLow).toList ++ ")\n".toList)
  | UserLoggedIn => none
  | FileActionOk =>
    some ((Nat.repr (code FileActionOk)).toList ++
      " Requested file action okay, completed\n".toList)
  | PathCreated => none
  | UsernameOk => none
  | NeedLoginAccount => none
  | FileActionPending => none
  | Unnavaidable => none
  | CantOpenDataConn => none
  | TransferAborted => none
  | FileActionNotTaken => none
  | ActionAbortedLocal => none
  | InsufficientStorage => none
  | SyntaxError => none
  | CmdNotImplemented =>
    some ((Nat.repr (code CmdNotImplemented)).toList ++ " Command not implemented\n".toList)
  | CmdBadSequence => none
  | CmdNotImplementedParam => none
  | UserNotLoggedIn => none
  | NeedAccountForStore => none
  | ActionNotTaken => none
  | ActionAbortedPageTypeUnknown => none
  | ExceededStorageAllocation => none
  | FilenameNotAllowed => none

end StatusCode

/-! ## Paths

Rust `Path::join`: an absolute right-hand side replaces the base,
otherwise the component is appended with a separator. -/

def pathJoin (base arg : List Char) : List Char :=
  if arg.head? = some '/' then arg
  else if base.getLast? = some '/' then base ++ arg
  else base ++ '/' :: arg

/-! ## Newer status-code names used by the command handlers

Modelled from the spec: the command handlers in src/ftp/command/*.rs
reference status-code variants (`ClosingDataConnection`,
`CantOpenDataConnection`, `FileStatusOk(String)`, `FileActionOk(String)`,
`FileActionNotTaken`) of a newer catalog revision that is not under
src/; the numeric codes follow spec §6 and the matching names of the
src/ftp/status_codes.rs catalog. -/
inductive CmdStatus where
  | DataOpenTransfer
  | FileStatusOk (message : List Char)
  | Ok
  | ClosingDataConn
  | ClosingDataConnection
  | CantOpenDataConnection
  | FileActionNotTaken
  | FileActionOk (message : List Char)
deriving DecidableEq

/-- Modelled from the spec: numeric codes of the handler status variants,
per spec §6 and the src catalog entries of the same name. -/
def CmdStatus.code : CmdStatus → Nat
  | .DataOpenTransfer => 125
  | .FileStatusOk _ => 150
  | .Ok => 200
  | .ClosingDataConn => 226
  | .ClosingDataConnection => 226
  | .CantOpenDataConnection => 425
  | .FileActionNotTaken => 450
  | .FileActionOk _ => 250

/-! ## Transfer event traces

The observable actions of a command handler on the control channel, the
data connection and the filesystem, in execution order.  A handler that
panics (an `unwrap` of an absent value) is modelled as `none`. -/

inductive Ev where
  | ctrl (s : CmdStatus)
  | fileCreated (p : List Char)
  | fileOut (b : List Nat)
  | dataOut (b : List Nat)
  | dataShut
deriving DecidableEq

/-- The 4096-byte chunking of the read/write loops in
src/ftp/command/stor.rs and src/ftp/command/retr.rs: each `read` returns
the next at-most-4096 bytes, a read of 0 bytes ends the loop. -/
def chunkedAux : Nat → List Nat → List (List Nat)
  | _, [] => []
  | 0, _ :: _ => []
  | fuel + 1, a :: rest =>
    (a :: rest).take 4096 :: chunkedAux fuel ((a :: rest).drop 4096)

/-- The chunk decomposition: the successive at-most-4096-byte reads, with
a fuel of the data length (each chunk consumes at least one byte, so the
fuel is sufficient). -/
def chunked (data : List Nat) : List (List Nat) :=
  chunkedAux data.length data

theorem chunkedAux_flatten :
    ∀ (fuel : Nat) (d : List Nat), d.length ≤ fuel →
      (chunkedAux fuel d).flatten = d := by
  intro fuel
  induction fuel with
  | zero =>
    intro d hd
    have : d = [] := List.length_eq_zero.mp (Nat.le_zero.mp hd)
    subst this
    rfl
  | succ fuel ih =>
    intro d hd
    cases d with
    | nil => rfl
    | cons a rest =>
      show (((a :: rest).take 4096 :: chunkedAux fuel ((a :: rest).drop 4096)).flatten = _)
      rw [List.flatten_cons]
      have hlen : ((a :: rest).drop 4096).length ≤ fuel := by
        rw [List.length_drop]
        simp at hd ⊢
        omega
      rw [ih _ hlen]
      exact List.take_append_drop 4096 (a :: rest)

theorem chunked_flatten (data : List Nat) : (chunked data).flatten = data :=
  chunkedAux_flatten data.length data (Nat.le_refl _)

/-- All bytes written to the file, in order. -/
def fileWritten (evs : List Ev) : List Nat :=
  (evs.filterMap fun e => match e with | .fileOut b => some b | _ => none).flatten

/-- All bytes written to the data connection, in order. -/
def dataSent (evs : List Ev) : List Nat :=
  (evs.filterMap fun e => match e with | .dataOut b => some b | _ => none).flatten

/-- `Stor::run` from src/ftp/command/stor.rs.  Writes reply 125, unwraps
the session data connection (panic — `none` — when absent; the 125 write
precedes the panic), creates the file at `cwd.flatten(destination)`, copies
the data-channel bytes to the file in 4096-byte chunks until a zero-length
read, shuts the data connection down, and returns the final status
`CantOpenDataConnection`. -/
def storRun (cwd destination : List Char) (dataConnection : Option (List Nat)) :
    Option (List Ev × Option CmdStatus) :=
  match dataConnection with
  | none => none
  | some data =>
    some (Ev.ctrl .DataOpenTransfer :: Ev.fileCreated (pathJoin cwd destination) ::
      ((chunked data).map Ev.fileOut ++ [Ev.dataShut]),
      some .CantOpenDataConnection)

/-- `Retr::run` from src/ftp/command/retr.rs.  Opens `cwd.flatten(source)`
(missing file: reply `FileActionNotTaken`, data connection untouched),
writes reply 125, unwraps the data connection (panic — `none` — when
absent), streams the file in 4096-byte chunks to the data connection,
shuts it down and returns `ClosingDataConnection`. -/
def retrRun (cwd source : List Char) (fs : List Char → Option (List Nat))
    (dataConnection : Option Unit) : Option (List Ev × Option CmdStatus) :=
  match fs (pathJoin cwd source) with
  | none => some ([], some .FileActionNotTaken)
  | some contents =>
    match dataConnection with
    | none => none
    | some _ =>
      some (Ev.ctrl .DataOpenTransfer ::
        ((chunked contents).map Ev.dataOut ++ [Ev.dataShut]),
        some .ClosingDataConnection)

/-- `List::run` from src/ftp/command/list.rs.  Writes reply 125
(`DataOpenTransfer`), then — only if a data connection is present —
writes one formatted line per directory entry, a single NUL byte, flushes
and shuts the data connection down; in every case it returns
`ClosingDataConn` (226).  `lines` are the formatted entry lines produced
from the directory read (filesystem metadata is an external
collaborator). -/
def listRun (dataConnection : Option Unit) (lines : List (List Nat)) :
    List Ev × Option CmdStatus :=
  (Ev.ctrl .DataOpenTransfer ::
    (match dataConnection with
     | some _ => lines.map Ev.dataOut ++ [Ev.dataOut [0], Ev.dataShut]
     | none => []),
   some .ClosingDataConn)

/-- `Mlsd::run` from src/ftp/command/mlsd.rs.  Writes reply 150
(`FileStatusOk`), then with a data connection present writes one entry
line per directory entry, a single NUL byte, shuts the connection down
and returns `ClosingDataConnection` (226); with no data connection it
returns `CantOpenDataConnection` (425). -/
def mlsdRun (dataConnection : Option Unit) (lines : List (List Nat)) :
    List Ev × Option CmdStatus :=
  (Ev.ctrl (.FileStatusOk " Directory listing has started".toList) ::
    (match dataConnection with
     | some _ => lines.map Ev.dataOut ++ [Ev.dataOut [0], Ev.dataShut]
     | none => []),
   match dataConnection with
   | some _ => some .ClosingDataConnection
   | none => some .CantOpenDataConnection)

/-! ## CWD -/

/-- Modelled from the spec: `InnerConnection::change_dir` (the session
state type of the Connection Actor is not under src/; src/ftp/command/cwd.rs
is its caller).  Per spec §4.3 it resolves the argument against the
current cwd, checks the result is an existing directory, and only then
commits; otherwise it signals an InvalidDirectory error and leaves the
state unchanged.  `isDir` is the filesystem collaborator. -/
def change_dir (isDir : List Char → Bool) (cwd arg : List Char) :
    Except Unit (List Char) :=
  let target := pathJoin cwd arg
  if isDir target then Except.ok target else Except.error ()

/-- `Cwd::run` from src/ftp/command/cwd.rs: calls `change_dir` and
propagates its error with `?` (the session cwd is unchanged on error);
on success replies `FileActionOk`. -/
def cwdRun (isDir : List Char → Bool) (cwd arg : List Char) :
    Except Unit (List Char × CmdStatus) :=
  match change_dir isDir cwd arg with
  | Except.error e => Except.error e
  | Except.ok newCwd =>
    Except.ok (newCwd, CmdStatus.FileActionOk " Directory successfully changed".toList)

/-- The CWD arm of `handle_client` in src/main.rs:
`cwd = cwd.join(args[0])` followed by writing `FileActionOk` — no check
that the target exists.  `args[0]` panics (`none`) when no argument is
present.  Returns the new cwd and the reply written. -/
def handleClientCwd (cwd : List Char) (args : List (List Char)) :
    Option (List Char × StatusCode) :=
  match args.head? with
  | none => none
  | some a => some (pathJoin cwd a, StatusCode.FileActionOk)

/-! ## PASV -/

/-- The 227 reply built by `Pasv::run` in src/ftp/command/pasv.rs: the
listener is bound to 127.0.0.1 with an ephemeral port; `div_rem (port,
256)` gives the high and low bytes of the reply. -/
def pasvReply (port : Nat) : StatusCode :=
  StatusCode.EnteringPassiveMode (port / 256) (port % 256)

/-- The four octets of the IPv4 address `Pasv::run` binds its listener
to: `SocketAddr::from(([127, 0, 0, 1], 0))`. -/
def pasvBindOctets : List Nat := [127, 0, 0, 1]

/-! ## Command construction (src/ftp/command/mod.rs) -/

/-- The `Command` enum of src/ftp/command/mod.rs: one variant per
supported keyword, carrying the argument tokens its `TryFrom` accepts. -/
inductive Command where
  | User (name : List Char)
  | Pass (password : List Char)
  | Pasv
  | Stor (destination : List Char)
  | Retr (source : List Char)
  | Port (address : List Char)
  | Syst
  | Feat
  | Pwd
  | Cwd (path : List Char)
  | Rest (offset : Nat)
  | Type (c : Char)
  | List (args : List (List Char))
deriving DecidableEq

/-- Outcome of `Command::try_from((keyword, args))`: a constructed
variant, a recoverable error (`miette!` bail), or a panic inside a
`try_from` (an `unwrap` on client input). -/
inductive ConstructResult where
  | built (c : Command)
  | invalid
  | crashed
deriving DecidableEq

def isAsciiDigit (c : Char) : Bool := '0' ≤ c && c ≤ '9'

def digitsToNat (ds : List Char) : Nat :=
  ds.foldl (fun n c => n * 10 + (c.toNat - '0'.toNat)) 0

/-- Rust `str::parse::<uN>`: an optional leading plus sign, then at least
one ASCII digit, with the value within the type bound; anything else is a
parse error. -/
def parseRustUint (bound : Nat) (s : List Char) : Option Nat :=
  let ds := match s with
    | '+' :: rest => rest
    | _ => s
  if ds ≠ [] ∧ ds.all isAsciiDigit ∧ digitsToNat ds ≤ bound then
    some (digitsToNat ds)
  else none

/-- `Command::try_from((command, args))` from src/ftp/command/mod.rs,
inlining each variant's `try_from` (src/ftp/command/<cmd>.rs): keyword
match in source order, arity checks as written there.  `TYPE` takes
`args[0].chars().next().unwrap()` — a panic on an empty token. -/
def commandTryFrom (keyword : List Char) (args : List (List Char)) : ConstructResult :=
  if keyword = "USER".toList then
    if args.length = 1 then .built (.User (args.headD [])) else .invalid
  else if keyword = "PASS".toList then
    if args.length ≤ 1 then .built (.Pass (args.headD "anonymous".toList)) else .invalid
  else if keyword = "PASV".toList then
    if args.isEmpty then .built .Pasv else .invalid
  else if keyword = "STOR".toList then
    if args.length = 1 then .built (.Stor (args.headD [])) else .invalid
  else if keyword = "RETR".toList then
    if args.length = 1 then .built (.Retr (args.headD [])) else .invalid
  else if keyword = "PORT".toList then
    if args.length = 1 then .built (.Port (args.headD [])) else .invalid
  else if keyword = "SYST".toList then
    if args.isEmpty then .built .Syst else .invalid
  else if keyword = "FEAT".toList then
    if args.isEmpty then .built .Feat else .invalid
  else if keyword = "PWD".toList then
    if args.isEmpty then .built .Pwd else .invalid
  else if keyword = "CWD".toList then
    if args.length = 1 then .built (.Cwd (args.headD [])) else .invalid
  else if keyword = "REST".toList then
    if args.length = 1 then
      match parseRustUint (2 ^ 64 - 1) (args.headD []) with
      | some n => .built (.Rest n)
      | none => .invalid
    else .invalid
  else if keyword = "TYPE".toList then
    if args.length = 1 then
      match (args.headD []).head? with
      | some c => .built (.Type c)
      | none => .crashed
    else .invalid
  else if keyword = "LIST".toList then
    .built (.List args)
  else .invalid

/-- Rust `str::split(',')` on a character list: comma-separated segments,
empty segments included. -/
def splitComma : List Char → List (List Char)
  | [] => [[]]
  | c :: rest =>
    if c = ',' then [] :: splitComma rest
    else
      match splitComma rest with
      | [] => [[c]]
      | seg :: segs => (c :: seg) :: segs

/-- The octet parsing in `Port::run` (src/ftp/command/port.rs): splits
the single PORT argument on commas, parses each piece as `u8` with
`unwrap` (panic — `none` — on a malformed piece), then indexes elements
0 to 5 (panic when fewer than six octets).  Returns the IPv4 octets and
the port `(a4 << 8) | a5`. -/
def portRunOctets (address : List Char) : Option (List Nat × Nat) :=
  match (splitComma address).mapM (parseRustUint 255) with
  | none => none
  | some vals =>
    match vals with
    | a0 :: a1 :: a2 :: a3 :: a4 :: a5 :: _ =>
      some ([a0, a1, a2, a3], a4 * 256 + a5)
    | _ => none

/-! ## Trace accounting lemmas -/

theorem filterMap_fileOut_map (chunks : List (List Nat)) :
    (chunks.map Ev.fileOut).filterMap
      (fun e => match e with | Ev.fileOut b => some b | _ => none) = chunks := by
  induction chunks with
  | nil => rfl
  | cons c cs ih => simp [List.filterMap_cons, ih]

theorem filterMap_dataOut_map (chunks : List (List Nat)) :
    (chunks.map Ev.dataOut).filterMap
      (fun e => match e with | Ev.dataOut b => some b | _ => none) = chunks := by
  induction chunks with
  | nil => rfl
  | cons c cs ih => simp [List.filterMap_cons, ih]

theorem fileWritten_storTrace (st : CmdStatus) (p : List Char)
    (chunks : List (List Nat)) :
    fileWritten (Ev.ctrl st :: Ev.fileCreated p ::
      (chunks.map Ev.fileOut ++ [Ev.dataShut])) = chunks.flatten := by
  unfold fileWritten
  rw [List.filterMap_cons, List.filterMap_cons, List.filterMap_append,
    filterMap_fileOut_map]
  simp

theorem dataSent_retrTrace (st : CmdStatus) (chunks : List (List Nat)) :
    dataSent (Ev.ctrl st :: (chunks.map Ev.dataOut ++ [Ev.dataShut])) =
      chunks.flatten := by
  unfold dataSent
  rw [List.filterMap_cons, List.filterMap_append, filterMap_dataOut_map]
  simp

theorem dataSent_listTrace (st : CmdStatus) (lines : List (List Nat)) :
    dataSent (Ev.ctrl st ::
      (lines.map Ev.dataOut ++ [Ev.dataOut [0], Ev.dataShut])) =
      lines.flatten ++ [0] := by
  unfold dataSent
  rw [List.filterMap_cons, List.filterMap_append, filterMap_dataOut_map]
  simp

/-! ## Claim theorems -/

/-- C1: for every STOR command with destination `d` executed while a Data
Connection is installed, the bytes received on the data channel until EOF
are written exactly — all of them, in order, nothing else — to a newly
created file at the cwd-resolved path `cwd.join(d)`; the control channel
receives reply 125 (`DataOpenTransfer`) before the transfer and the
handler then produces a final status reply
(`CantOpenDataConnection`). -/
theorem stor_stores_exact_bytes (cwd d : List Char) (data : List Nat) :
    ∃ evs, storRun cwd d (some data) =
        some (evs, some CmdStatus.CantOpenDataConnection) ∧
      evs.head? = some (Ev.ctrl CmdStatus.DataOpenTransfer) ∧
      CmdStatus.DataOpenTransfer.code = 125 ∧
      evs.tail.head? = some (Ev.fileCreated (pathJoin cwd d)) ∧
      fileWritten evs = data := by
  refine ⟨_, rfl, rfl, rfl, rfl, ?_⟩
  rw [fileWritten_storTrace]
  exact chunked_flatten data

/-- Concrete one-file filesystem used as explicit input: the file
/srv/hello.txt holds the bytes of "hello\n". -/
def fsHello : List Char → Option (List Nat) :=
  fun p =>
    if p = "/srv/hello.txt".toList then
      some ("hello\n".toList.map Char.toNat)
    else none

/-- C2 counterexample: RETR of the existing file /srv/hello.txt with
contents "hello\n" sends on the data channel exactly the file contents —
with no trailing NUL completion sentinel — before shutting the data
socket down: the bytes sent differ from contents-plus-sentinel.
`Retr::run` in src/ftp/command/retr.rs writes only the file chunks and
then shuts the connection down. -/
theorem retr_no_sentinel_counterexample :
    (retrRun "/srv".toList "hello.txt".toList fsHello (some ())).map
        (fun res => dataSent res.1) =
      some ("hello\n".toList.map Char.toNat) ∧
    ("hello\n".toList.map Char.toNat : List Nat) ≠
      "hello\n".toList.map Char.toNat ++ [0] := by
  constructor
  · decide
  · decide

/-- C2 amended: for every RETR command naming an existing file, the data
channel carries exactly the file contents — without any completion
sentinel — before the data socket is shut down, and the control channel
receives reply 125 (`DataOpenTransfer`) before the transfer and the final
status `ClosingDataConnection` (226) after it. -/
theorem retr_sends_exact_contents (cwd source : List Char)
    (fs : List Char → Option (List Nat)) (contents : List Nat)
    (h : fs (pathJoin cwd source) = some contents) :
    ∃ evs, retrRun cwd source fs (some ()) =
        some (evs, some CmdStatus.ClosingDataConnection) ∧
      evs.head? = some (Ev.ctrl CmdStatus.DataOpenTransfer) ∧
      CmdStatus.DataOpenTransfer.code = 125 ∧
      CmdStatus.ClosingDataConnection.code = 226 ∧
      dataSent evs = contents ∧
      evs.getLast? = some Ev.dataShut := by
  have hrun : retrRun cwd source fs (some ()) =
      some (Ev.ctrl CmdStatus.DataOpenTransfer ::
        ((chunked contents).map Ev.dataOut ++ [Ev.dataShut]),
        some CmdStatus.ClosingDataConnection) := by
    unfold retrRun
    rw [h]
  refine ⟨_, hrun, rfl, rfl, rfl, ?_, ?_⟩
  · rw [dataSent_retrTrace]
    exact chunked_flatten contents
  · rw [show Ev.ctrl CmdStatus.DataOpenTransfer ::
        ((chunked contents).map Ev.dataOut ++ [Ev.dataShut]) =
        (Ev.ctrl CmdStatus.DataOpenTransfer ::
          (chunked contents).map Ev.dataOut) ++ [Ev.dataShut] from by simp]
    exact List.getLast?_concat _

theorem retr_sends_exact_contents_witness :
    fsHello (pathJoin "/srv".toList "hello.txt".toList) =
      some ("hello\n".toList.map Char.toNat) ∧
    (∃ evs, retrRun "/srv".toList "hello.txt".toList fsHello (some ()) =
        some (evs, some CmdStatus.ClosingDataConnection) ∧
      evs.head? = some (Ev.ctrl CmdStatus.DataOpenTransfer) ∧
      CmdStatus.DataOpenTransfer.code = 125 ∧
      CmdStatus.ClosingDataConnection.code = 226 ∧
      dataSent evs = "hello\n".toList.map Char.toNat ∧
      evs.getLast? = some Ev.dataShut) :=
  ⟨by decide,
   retr_sends_exact_contents "/srv".toList "hello.txt".toList fsHello
     ("hello\n".toList.map Char.toNat) (by decide)⟩

/-- C4: code-bug evidence.  A data-bearing command executed while the
session's Data Connection is absent does not wait with bounded retries:
`Stor::run` and `Retr::run` `unwrap()` the absent connection and panic
immediately (`none`), `List::run` silently skips the listing and still
replies 226, and `Mlsd::run` replies 425 immediately. -/
theorem data_commands_fail_immediately_without_connection :
    storRun "/srv".toList "f.txt".toList none = none ∧
    retrRun "/srv".toList "hello.txt".toList fsHello none = none ∧
    listRun none [] =
      ([Ev.ctrl CmdStatus.DataOpenTransfer], some CmdStatus.ClosingDataConn) ∧
    mlsdRun none [] =
      ([Ev.ctrl (CmdStatus.FileStatusOk " Directory listing has started".toList)],
        some CmdStatus.CantOpenDataConnection) := by
  refine ⟨rfl, by decide, rfl, rfl⟩

/-- C5 counterexample: LIST executed with no Data Connection available
does not reply 425 — its pre-listing reply is 125 (not 150) and its
final reply is 226 (`ClosingDataConn`), exactly as when a connection is
present. -/
theorem list_never_replies_425_counterexample :
    listRun none [] =
      ([Ev.ctrl CmdStatus.DataOpenTransfer], some CmdStatus.ClosingDataConn) ∧
    CmdStatus.DataOpenTransfer.code = 125 ∧
    CmdStatus.ClosingDataConn.code = 226 ∧
    CmdStatus.DataOpenTransfer.code ≠ 150 ∧
    CmdStatus.ClosingDataConn.code ≠ 425 := by
  decide

/-- C5 amended: MLSD writes its 150 reply (`FileStatusOk`) before the
listing and replies 425 (`CantOpenDataConnection`) when no Data
Connection is available and 226 (`ClosingDataConnection`) when the
listing completes; LIST instead writes 125 (`DataOpenTransfer`) before
the listing, and replies 226 (`ClosingDataConn`) in both cases — even
with no Data Connection available, never 425 — sending nothing in that
case. -/
theorem list_mlsd_replies (dc : Option Unit) (lines : List (List Nat)) :
    (mlsdRun dc lines).1.head? =
      some (Ev.ctrl (CmdStatus.FileStatusOk " Directory listing has started".toList)) ∧
    (CmdStatus.FileStatusOk " Directory listing has started".toList).code = 150 ∧
    (dc = none → (mlsdRun dc lines).2 = some CmdStatus.CantOpenDataConnection ∧
      CmdStatus.CantOpenDataConnection.code = 425) ∧
    (dc = some () → (mlsdRun dc lines).2 = some CmdStatus.ClosingDataConnection ∧
      CmdStatus.ClosingDataConnection.code = 226 ∧
      dataSent (mlsdRun dc lines).1 = lines.flatten ++ [0]) ∧
    (listRun dc lines).1.head? = some (Ev.ctrl CmdStatus.DataOpenTransfer) ∧
    CmdStatus.DataOpenTransfer.code = 125 ∧
    (listRun dc lines).2 = some CmdStatus.ClosingDataConn ∧
    CmdStatus.ClosingDataConn.code = 226 ∧
    (dc = none → dataSent (listRun dc lines).1 = []) := by
  cases dc with
  | none =>
    refine ⟨rfl, rfl, fun _ => ⟨rfl, rfl⟩, ?_, rfl, rfl, rfl, rfl, fun _ => rfl⟩
    intro hc
    exact absurd hc (by simp)
  | some u =>
    refine ⟨rfl, rfl, ?_, ?_, rfl, rfl, rfl, rfl, ?_⟩
    · intro hc
      exact absurd hc (by simp)
    · intro _
      exact ⟨rfl, rfl, dataSent_listTrace _ lines⟩
    · intro hc
      exact absurd hc (by simp)

theorem list_mlsd_replies_witness :
    (mlsdRun (some ()) [[104]]).2 = some CmdStatus.ClosingDataConnection ∧
    dataSent (mlsdRun (some ()) [[104]]).1 = [104, 0] ∧
    (mlsdRun none []).2 = some CmdStatus.CantOpenDataConnection := by
  obtain ⟨_, _, _, h4, _⟩ := list_mlsd_replies (some ()) [[104]]
  obtain ⟨_, _, g3, _⟩ := list_mlsd_replies none []
  refine ⟨(h4 rfl).1, ?_, (g3 rfl).1⟩
  have := (h4 rfl).2.2
  simpa using this

/-! ## Reply line shape -/

/-- The reply line begins with the decimal status code followed by a
space. -/
def startsWithCode (c : Nat) (r : List Char) : Prop :=
  ∃ m, r = (Nat.repr c).toList ++ ' ' :: m

/-- The reply line is terminated by a newline. -/
def endsWithNewline (r : List Char) : Prop :=
  ∃ m, r = m ++ ['\n']

/-- C3: code-bug evidence.  The CWD arm of `handle_client` in src/main.rs
commits the joined path as the new working directory and replies 250
(`FileActionOk`) without any check that the target exists: on the input
`CWD nonexistent` with cwd `./` the working directory changes to
`./nonexistent` even in a filesystem with no directories at all, whereas
the spec-modelled `change_dir` (spec §4.3) rejects the same input with an
error and leaves the state unchanged. -/
theorem handle_client_cwd_no_validation :
    handleClientCwd "./".toList ["nonexistent".toList] =
      some ("./nonexistent".toList, StatusCode.FileActionOk) ∧
    "./nonexistent".toList ≠ "./".toList ∧
    StatusCode.FileActionOk.code = 250 ∧
    change_dir (fun _ => false) "./".toList "nonexistent".toList =
      Except.error () := by
  refine ⟨by decide, by decide, rfl, rfl⟩

/-- C6 counterexample: `StatusCode::Ok.code()` is 200, but rendering
`StatusCode::Ok` produces `"200 Ok"` with no terminating newline, and
rendering `StatusCode::UserLoggedIn` is `todo!()` — a panic, not a
protocol line; so not every variant renders to a newline-terminated
`"<code> <message>\n"` line. -/
theorem statuscode_ok_render_counterexample :
    StatusCode.code StatusCode.Ok = 200 ∧
    StatusCode.render StatusCode.Ok = some "200 Ok".toList ∧
    ¬ endsWithNewline "200 Ok".toList ∧
    StatusCode.render StatusCode.UserLoggedIn = none := by
  refine ⟨rfl, rfl, ?_, rfl⟩
  rintro ⟨m, hm⟩
  have hlast := congrArg List.getLast? hm
  rw [List.getLast?_concat] at hlast
  have hL : ("200 Ok".toList).getLast? = some 'k' := by decide
  rw [hL] at hlast
  exact absurd hlast (by decide)

/-- C6 amended: `StatusCode::Ok.code()` equals 200, and every variant
whose rendering is implemented produces a line that begins with the
variant's numeric code followed by a space; every implemented rendering
except that of `Ok` is terminated by a newline (the `todo!()` variants
panic instead of rendering). -/
theorem statuscode_render_format :
    StatusCode.code StatusCode.Ok = 200 ∧
    ∀ (sc : StatusCode) (r : List Char), StatusCode.render sc = some r →
      startsWithCode (StatusCode.code sc) r ∧
      (sc ≠ StatusCode.Ok → endsWithNewline r) := by
  refine ⟨rfl, ?_⟩
  intro sc r h
  cases sc <;> try (cases h)
  case RestartMarkerReply =>
    exact ⟨⟨"Restart marker reply\n".toList, by decide⟩,
      fun _ => ⟨"110 Restart marker reply".toList, by decide⟩⟩
  case DataOpenTransfer =>
    exact ⟨⟨"Data connection already open; transfer starting\n".toList, by decide⟩,
      fun _ => ⟨"125 Data connection already open; transfer starting".toList, by decide⟩⟩
  case Ok =>
    exact ⟨⟨"Ok".toList, by decide⟩, fun hne => absurd rfl hne⟩
  case HelpMsg message =>
    refine ⟨⟨message ++ "\n".toList, ?_⟩,
      fun _ => ⟨(Nat.repr (StatusCode.code (StatusCode.HelpMsg message))).toList ++
        " ".toList ++ message, ?_⟩⟩
    · rw [show (" ".toList : List Char) = [' '] from by decide]
      simp
    · rw [show ("\n".toList : List Char) = ['\n'] from by decide]
  case ServiceReadyUser =>
    exact ⟨⟨"Service ready for new user\n".toList, by decide⟩,
      fun _ => ⟨"220 Service ready for new user".toList, by decide⟩⟩
  case DataOpenNoTransfer =>
    exact ⟨⟨"Data connection open\n".toList, by decide⟩,
      fun _ => ⟨"225 Data connection open".toList, by decide⟩⟩
  case ClosingDataConn =>
    exact ⟨⟨"Closing data connection\n".toList, by decide⟩,
      fun _ => ⟨"226 Closing data connection".toList, by decide⟩⟩
  case EnteringPassiveMode portHigh portLow =>
    refine ⟨⟨"Entering Passive Mode (127, 0, 0, 1, ".toList ++
        (Nat.repr portHigh).toList ++ ", ".toList ++
        (Nat.repr portLow).toList ++ ")\n".toList, ?_⟩,
      fun _ => ⟨(Nat.repr (StatusCode.code
          (StatusCode.EnteringPassiveMode portHigh portLow))).toList ++
        " Entering Passive Mode (127, 0, 0, 1, ".toList ++
        (Nat.repr portHigh).toList ++ ", ".toList ++
        (Nat.repr portLow).toList ++ [')'], ?_⟩⟩
    · rw [show (" Entering Passive Mode (127, 0, 0, 1, ".toList : List Char) =
        ' ' :: "Entering Passive Mode (127, 0, 0, 1, ".toList from by decide]
      simp
    · rw [show (")\n".toList : List Char) = [')', '\n'] from by decide]
      simp
  case FileActionOk =>
    exact ⟨⟨"Requested file action okay, completed\n".toList, by decide⟩,
      fun _ => ⟨"250 Requested file action okay, completed".toList, by decide⟩⟩
  case CmdNotImplemented =>
    exact ⟨⟨"Command not implemented\n".toList, by decide⟩,
      fun _ => ⟨"502 Command not implemented".toList, by decide⟩⟩

theorem statuscode_render_format_witness :
    StatusCode.render StatusCode.ServiceReadyUser =
      some "220 Service ready for new user\n".toList ∧
    startsWithCode 220 "220 Service ready for new user\n".toList ∧
    endsWithNewline "220 Service ready for new user\n".toList := by
  refine ⟨by decide, ?_, ?_⟩
  · exact (statuscode_render_format.2 StatusCode.ServiceReadyUser
      "220 Service ready for new user\n".toList (by decide)).1
  · exact (statuscode_render_format.2 StatusCode.ServiceReadyUser
      "220 Service ready for new user\n".toList (by decide)).2 (by decide)

/-- C7 counterexample: for the listening port 2222 the PASV 227 reply is
`227 Entering Passive Mode (127, 0, 0, 1, 8, 174)` — with a space after
each comma — not the claimed comma-only format
`(h1,h2,h3,h4,p1,p2)`; the port encoding itself is correct
(8 * 256 + 174 = 2222). -/
theorem pasv_format_spaces_counterexample :
    pasvReply 2222 = StatusCode.EnteringPassiveMode 8 174 ∧
    StatusCode.render (pasvReply 2222) =
      some "227 Entering Passive Mode (127, 0, 0, 1, 8, 174)\n".toList ∧
    StatusCode.render (pasvReply 2222) ≠
      some "227 Entering Passive Mode (127,0,0,1,8,174)\n".toList ∧
    8 * 256 + 174 = 2222 := by
  decide

/-- C7 amended: for every PASV command the 227 reply encodes the passive
listener's address and port as
`227 Entering Passive Mode (h1, h2, h3, h4, p1, p2)` — with a space
after each comma — where `h1..h4 = 127,0,0,1` are the four octets of the
IPv4 address the listener is bound to and `p1 = port / 256`,
`p2 = port % 256`, so the listening port equals `p1 * 256 + p2`. -/
theorem pasv_reply_encoding (port : Nat) (h : port < 65536) :
    StatusCode.render (pasvReply port) =
      some ((Nat.repr 227).toList ++ " Entering Passive Mode (127, 0, 0, 1, ".toList ++
        (Nat.repr (port / 256)).toList ++ ", ".toList ++
        (Nat.repr (port % 256)).toList ++ ")\n".toList) ∧
    " Entering Passive Mode (127, 0, 0, 1, ".toList =
      " Entering Passive Mode (".toList ++
        (String.intercalate ", " (pasvBindOctets.map Nat.repr)).toList ++
        ", ".toList ∧
    port / 256 * 256 + port % 256 = port ∧
    port / 256 ≤ 255 ∧ port % 256 ≤ 255 := by
  refine ⟨rfl, by decide, by omega, by omega, by omega⟩

theorem pasv_reply_encoding_witness :
    (2222 : Nat) < 65536 ∧
    StatusCode.render (pasvReply 2222) =
      some ((Nat.repr 227).toList ++ " Entering Passive Mode (127, 0, 0, 1, ".toList ++
        (Nat.repr (2222 / 256)).toList ++ ", ".toList ++
        (Nat.repr (2222 % 256)).toList ++ ")\n".toList) ∧
    2222 / 256 * 256 + 2222 % 256 = 2222 :=
  ⟨by decide, (pasv_reply_encoding 2222 (by decide)).1,
    (pasv_reply_encoding 2222 (by decide)).2.2.1⟩

/-- C8: code-bug evidence.  A PORT line whose single argument is not six
comma-separated octets passes construction (`Port::try_from` only checks
the arity), and its execution then panics parsing or indexing the octet
array instead of replying 502: `portRunOctets "1,2,3"` is a panic
(`none`).  An unrecognized keyword, by contrast, is a recoverable
construction error; well-formed octets parse as expected. -/
theorem port_malformed_argument_panics :
    commandTryFrom "PORT".toList ["1,2,3".toList] =
      ConstructResult.built (Command.Port "1,2,3".toList) ∧
    portRunOctets "1,2,3".toList = none ∧
    portRunOctets "127,0,0,1,8,174".toList = some ([127, 0, 0, 1], 8 * 256 + 174) ∧
    commandTryFrom "XYZ".toList [] = ConstructResult.invalid := by
  decide

/-- C9: for every input line on which the line parser succeeds with
keyword `k` and argument tokens `args`, parsing the single-space rejoin
of `k :: args` again yields exactly the same keyword and argument list
(with empty remainder): tokenization is idempotent under single-space
re-joining. -/
theorem tokenization_idempotent (s k : List Char) (args : List (List Char))
    (r : List Char) (h : cmdParse s = some ((k, args), r)) :
    cmdParse (rejoinTokens (k :: args)) = some ((k, args), []) := by
  unfold cmdParse at h
  cases hp : cmdParam s with
  | none => rw [hp] at h; cases h
  | some pr =>
    obtain ⟨k0, rest0⟩ := pr
    rw [hp] at h
    simp only [Option.some.injEq, Prod.mk.injEq] at h
    obtain ⟨⟨hk, hargs⟩, _⟩ := h
    subst hk
    subst hargs
    have hgk : goodToken k0 := cmdParam_goodToken hp
    have hga := cmdArgs_goodTokens rest0
    have hall : ∀ t ∈ k0 :: (cmdArgs rest0).1, goodToken t := by
      intro t ht
      rcases List.mem_cons.mp ht with ht | ht
      · subst ht; exact hgk
      · exact hga t ht
    have := @cmdParse_rejoin (k0 :: (cmdArgs rest0).1) (by simp) hall
    simpa using this

theorem tokenization_idempotent_witness :
    cmdParse "LIST  a   b".toList =
      some (("LIST".toList, ["a".toList, "b".toList]), []) ∧
    cmdParse (rejoinTokens ["LIST".toList, "a".toList, "b".toList]) =
      some (("LIST".toList, ["a".toList, "b".toList]), []) :=
  ⟨by decide,
   tokenization_idempotent "LIST  a   b".toList "LIST".toList
     ["a".toList, "b".toList] [] (by decide)⟩

/-- C10: every token produced by a successful parse — the keyword and
each argument — is non-empty and contains no whitespace character, and
consequently the TYPE constructor, which takes the first character of its
argument token, never hits an empty token (its `unwrap` cannot
panic). -/
theorem parser_tokens_nonempty_nonwhitespace (s k r : List Char)
    (args : List (List Char)) (h : cmdParse s = some ((k, args), r)) :
    goodToken k ∧ (∀ a ∈ args, goodToken a) ∧
    commandTryFrom "TYPE".toList args ≠ ConstructResult.crashed := by
  unfold cmdParse at h
  cases hp : cmdParam s with
  | none => rw [hp] at h; cases h
  | some pr =>
    obtain ⟨k0, rest0⟩ := pr
    rw [hp] at h
    simp only [Option.some.injEq, Prod.mk.injEq] at h
    obtain ⟨⟨hk, hargs⟩, _⟩ := h
    subst hk
    subst hargs
    refine ⟨cmdParam_goodToken hp, cmdArgs_goodTokens rest0, ?_⟩
    have hred : commandTryFrom "TYPE".toList (cmdArgs rest0).1 =
        (if (cmdArgs rest0).1.length = 1 then
          match ((cmdArgs rest0).1.headD []).head? with
          | some c => ConstructResult.built (Command.Type c)
          | none => ConstructResult.crashed
        else ConstructResult.invalid) := rfl
    rw [hred]
    by_cases hl : (cmdArgs rest0).1.length = 1
    · rw [if_pos hl]
      cases hx : (cmdArgs rest0).1 with
      | nil => rw [hx] at hl; simp at hl
      | cons a as =>
        cases as with
        | cons b bs => rw [hx] at hl; simp at hl
        | nil =>
          have hga : goodToken a := cmdArgs_goodTokens rest0 a (by rw [hx]; simp)
          obtain ⟨hne, _⟩ := hga
          cases hy : a with
          | nil => exact absurd hy hne
          | cons c cs => simp
    · rw [if_neg hl]
      simp

theorem parser_tokens_nonempty_nonwhitespace_witness :
    cmdParse "TYPE A".toList = some (("TYPE".toList, ["A".toList]), []) ∧
    (goodToken "TYPE".toList ∧ (∀ a ∈ ["A".toList], goodToken a) ∧
      commandTryFrom "TYPE".toList ["A".toList] ≠ ConstructResult.crashed) :=
  ⟨by decide,
   parser_tokens_nonempty_nonwhitespace "TYPE A".toList "TYPE".toList []
     ["A".toList] (by decide)⟩

end FtpServer
